import Mathlib

/-!
Verification of the repository-scan pipeline in `analyzers/repo_analyzer.py`
(class `RepositoryAnalyzer`): file categorization, greedy chunk building,
per-chunk analysis with per-file failure isolation, chunk summarization and
result synthesis.  Python dictionaries are embedded as association lists with
first-key-wins lookup and update-or-append insertion (the semantics of CPython
`dict`); Python sets of strings are embedded as insertion-ordered duplicate-free
lists; numeric quality scores are embedded as rationals.
-/

/-! ## Dictionary and set embedding -/

/-- Python `dict` lookup: value of the first (hence, in a real dict, only)
entry with the given key. -/
def dget? {α : Type} : List (String × α) → String → Option α
  | [], _ => none
  | p :: rest, k => if p.1 = k then some p.2 else dget? rest k

/-- Python `dict.get(k, 0)` for integer-valued dictionaries. -/
def dictGet (d : List (String × Nat)) (k : String) : Nat :=
  (dget? d k).getD 0

/-- Python `dict` insertion `d[k] = v`: update the entry in place when the key
is present, append otherwise. -/
def dset {α : Type} : List (String × α) → String → α → List (String × α)
  | [], k, v => [(k, v)]
  | p :: rest, k, v => if p.1 = k then (k, v) :: rest else p :: dset rest k v

/-- Python `k in d`. -/
def dictHas {α : Type} (d : List (String × α)) (k : String) : Bool :=
  (dget? d k).isSome

/-- Python `set.add` under the insertion-order embedding of string sets. -/
def setInsert (s : List String) (x : String) : List String :=
  if x ∈ s then s else s ++ [x]

/-! ## Path and string helpers (`str.lower`, `pathlib.Path.name`, `.suffix`) -/

/-- Python `str.lower` on the ASCII paths the analyzer handles. -/
def strLower (s : String) : String :=
  String.mk (s.toList.map Char.toLower)

/-- Split a character list at every occurrence of `sep`. -/
def splitOnChar (sep : Char) : List Char → List (List Char)
  | [] => [[]]
  | c :: rest =>
    if c = sep then [] :: splitOnChar sep rest
    else
      match splitOnChar sep rest with
      | [] => [[c]]
      | h :: t => (c :: h) :: t

/-- `pathlib.Path(p).name`: the final path component. -/
def pathName (p : String) : String :=
  String.mk (((splitOnChar '/' p.toList).getLast?).getD p.toList)

/-- `pathlib.Path(p).suffix`: from the last dot of the final component,
empty when that dot is leading, trailing or absent. -/
def pathSuffix (p : String) : String :=
  let name := (pathName p).toList
  match (name.reverse.findIdx? (fun c => c = '.')).map (fun j => name.length - 1 - j) with
  | some i => if 0 < i ∧ i < name.length - 1 then String.mk (name.drop i) else ""
  | none => ""

/-- Python substring containment `needle in hay` on lists of characters. -/
def hasSub (needle : List Char) : List Char → Bool
  | [] => needle.isPrefixOf []
  | c :: t => needle.isPrefixOf (c :: t) || hasSub needle t

/-- Python `needle in hay` for strings. -/
def strIn (needle hay : String) : Bool :=
  hasSub needle.toList hay.toList

/-! ## Data model (`RepoChunk`, `RepoSummary`) -/

/-- `RepoChunk` dataclass: a chunk of repository files for analysis. -/
structure RepoChunk where
  files : List String
  size_bytes : Nat
  category : String
  priority : Nat
deriving Repr, DecidableEq

/-- The `structure` dictionary built by `_create_repo_summary`. -/
structure RepoStructure where
  categories : List (String × Nat)
  total_files : Nat
  languages : List (String × Nat)
deriving Repr, DecidableEq

/-- `RepoSummary` dataclass: high-level repository summary. -/
structure RepoSummary where
  total_files : Nat
  languages : List (String × Nat)
  structure_info : RepoStructure
  key_patterns : List String
  quality_overview : List (String × ℚ)
deriving Repr, DecidableEq

/-! ## `_categorize_file` -/

/-- `RepositoryAnalyzer._categorize_file`: classify a relative path into one of
the six categories, first match wins, over the lowercased path string. -/
def _categorize_file (file_path : String) : String :=
  let path_str := strLower file_path
  if strIn "test" path_str
      || "test_".toList.isPrefixOf (pathName file_path).toList then "tests"
  else if ["config", "settings", ".env", "requirements", "package.json",
           "Dockerfile"].any (fun p => strIn p path_str) then "config"
  else if ["readme", "doc", ".md", ".rst", ".txt"].any
           (fun p => strIn p path_str) then "docs"
  else if ["makefile", "setup.py", ".yml", ".yaml", "build", "deploy"].any
           (fun p => strIn p path_str) then "build"
  else if [".py", ".js", ".ts", ".java", ".go", ".rs", ".cpp", ".c",
           ".h"].contains (strLower (pathSuffix file_path)) then "core"
  else "other"

/-! ## `_create_repo_summary` -/

/-- Extension histogram of `_create_repo_summary`: count `Path(f).suffix.lower()`
per file, skipping files with an empty suffix. -/
def extHistogram (file_inventory : List (String × List String)) : List (String × Nat) :=
  file_inventory.foldl
    (fun acc cat => cat.2.foldl
      (fun a f =>
        let ext := strLower (pathSuffix f)
        if ext = "" then a else dset a ext (dictGet a ext + 1)) acc)
    []

/-- `RepositoryAnalyzer._create_repo_summary` over the categorized inventory. -/
def _create_repo_summary (file_inventory : List (String × List String)) : RepoSummary :=
  let total_files := (file_inventory.map (fun c => c.2.length)).sum
  let languages := extHistogram file_inventory
  { total_files := total_files
    languages := languages
    structure_info :=
      { categories := file_inventory.map (fun c => (c.1, c.2.length))
        total_files := total_files
        languages := languages }
    key_patterns := []
    quality_overview := [] }

/-! ## `_split_files_into_chunks`

The Python method re-stats every path inside its loop and, on `OSError`,
does `continue`, silently dropping the file.  The fallible
`Path(file_path).stat().st_size` call is embedded as an oracle
`stat : String → Option Nat`, `none` modelling the raised `OSError`. -/

/-- Loop state of `_split_files_into_chunks`: emitted chunks, the accumulator
chunk's paths and its running byte total. -/
structure SplitSt where
  chunks : List RepoChunk
  current_chunk : List String
  current_size : Nat
deriving Repr, DecidableEq

/-- One iteration of the `_split_files_into_chunks` loop for file `f`
(path, size): split when the running total would exceed the byte budget or the
accumulator already holds the file-count budget, append otherwise. -/
def splitStep (B F : Nat) (category : String) (priority : Nat)
    (st : SplitSt) (f : String × Nat) : SplitSt :=
  if B < st.current_size + f.2 ∨ F ≤ st.current_chunk.length then
    { chunks :=
        if st.current_chunk.isEmpty then st.chunks
        else st.chunks ++ [⟨st.current_chunk, st.current_size, category, priority⟩]
      current_chunk := [f.1]
      current_size := f.2 }
  else
    { st with
      current_chunk := st.current_chunk ++ [f.1]
      current_size := st.current_size + f.2 }

/-- Trailing emit of `_split_files_into_chunks`: after the loop, append the
accumulator chunk when it is non-empty. -/
def splitOut (category : String) (priority : Nat) (st : SplitSt) : List RepoChunk :=
  if st.current_chunk.isEmpty then st.chunks
  else st.chunks ++ [⟨st.current_chunk, st.current_size, category, priority⟩]

/-- The chunking fold over files whose stat already succeeded, as
(path, size) pairs: the part of the loop after the `try/except`. -/
def splitSizedFiles (B F : Nat) (files : List (String × Nat))
    (category : String) (priority : Nat) : List RepoChunk :=
  splitOut category priority (files.foldl (splitStep B F category priority) ⟨[], [], 0⟩)

/-- One full iteration of the `_split_files_into_chunks` loop: re-stat the
path; `except OSError: continue` leaves the state untouched (the file is
silently dropped), a successful stat runs the budget checks with the statted
size. -/
def splitStatStep (stat : String → Option Nat) (B F : Nat) (category : String)
    (priority : Nat) (st : SplitSt) (file_path : String) : SplitSt :=
  match stat file_path with
  | none => st
  | some file_size => splitStep B F category priority st (file_path, file_size)

/-- `RepositoryAnalyzer._split_files_into_chunks` with byte budget `B`
(`max_chunk_size`), file-count budget `F` (`max_files_per_chunk`) and the
fallible per-file `Path(file_path).stat().st_size` as the oracle `stat`. -/
def _split_files_into_chunks (stat : String → Option Nat) (B F : Nat)
    (files : List String) (category : String) (priority : Nat) : List RepoChunk :=
  splitOut category priority
    (files.foldl (splitStatStep stat B F category priority) ⟨[], [], 0⟩)

/-- The (path, size) pairs of the files whose re-stat succeeds, in input
order: the files the loop actually processes. -/
def stattedFiles (stat : String → Option Nat) (files : List String) :
    List (String × Nat) :=
  files.filterMap (fun q => (stat q).map (fun sz => (q, sz)))

/-! ## Lemmas about the chunk builder -/

/-- All file paths held by a split state, emitted chunks first. -/
def flatFiles (st : SplitSt) : List String :=
  (st.chunks.map RepoChunk.files).flatten ++ st.current_chunk

/-- The invariant kept by every chunk the builder emits: at most `F` files,
and within the byte budget unless the chunk is an oversized singleton. -/
def chunkOK (B F : Nat) (ch : RepoChunk) : Prop :=
  ch.files.length ≤ F ∧ (ch.size_bytes ≤ B ∨ (ch.files.length = 1 ∧ B < ch.size_bytes))

/-- The loop invariant of `_split_files_into_chunks`. -/
def stOK (B F : Nat) (st : SplitSt) : Prop :=
  (∀ ch ∈ st.chunks, chunkOK B F ch) ∧ st.current_chunk.length ≤ F ∧
    (st.current_size ≤ B ∨ (st.current_chunk.length = 1 ∧ B < st.current_size))

/-! ## Per-file analysis and chunk execution (`_analyze_chunk`, `_summarize_chunk`) -/

/-- An issue reported by the file analyzer; `type?` embeds the optional
`type` field of the issue dictionary. -/
structure Issue where
  type? : Option String
deriving Repr, DecidableEq

/-- Result of the external file-analyzer capability for one file. -/
structure FileResult where
  quality_score : ℚ
  issues : List Issue
  language : String
deriving Repr, DecidableEq

/-- One entry appended to `chunk_analysis["files"]`. -/
structure FileAnalysis where
  path : String
  quality_score : ℚ
  issues : List Issue
  language : String
deriving Repr, DecidableEq

/-- The non-empty chunk summary dictionary built by `_summarize_chunk`. -/
structure ChunkSummary where
  file_count : Nat
  average_quality : ℚ
  issue_summary : List (String × Nat)
  languages : List String
deriving Repr, DecidableEq

/-- The `chunk_analysis` dictionary built by `_analyze_chunk`; the empty
summary dictionary is `none`; `patterns` and `issues` are initialized empty
and never filled by the code. -/
structure ChunkAnalysis where
  category : String
  file_count : Nat
  size_bytes : Nat
  files : List FileAnalysis
  summary : Option ChunkSummary
  patterns : List String
  issues : List Issue
deriving Repr, DecidableEq

/-- One element of the result list `_analyze_chunks_parallel` collects. -/
structure ChunkResultEntry where
  chunk_info : RepoChunk
  analysis : ChunkAnalysis
deriving Repr, DecidableEq

/-- `issue.get("type", "unknown")`. -/
def issueType (i : Issue) : String :=
  i.type?.getD "unknown"

/-- The per-chunk issue histogram loop of `_summarize_chunk`. -/
def issueCounts (file_analyses : List FileAnalysis) : List (String × Nat) :=
  file_analyses.foldl
    (fun acc fa => fa.issues.foldl
      (fun a i => dset a (issueType i) (dictGet a (issueType i) + 1)) acc)
    []

/-- `RepositoryAnalyzer._summarize_chunk`: empty input gives the empty
summary, otherwise mean quality, issue histogram and language set. -/
def _summarize_chunk (file_analyses : List FileAnalysis) : Option ChunkSummary :=
  if file_analyses.isEmpty then none
  else some
    { file_count := file_analyses.length
      average_quality :=
        (file_analyses.map (fun f => f.quality_score)).sum / (file_analyses.length : ℚ)
      issue_summary := issueCounts file_analyses
      languages := file_analyses.foldl (fun acc f => setInsert acc f.language) [] }

/-- The per-file loop of `_analyze_chunk`, the external file analyzer passed
as an oracle: `none` models `unified_analyzer.analyze_file` raising (the
failure is caught, logged and the file skipped, appending nothing), `some r` a
successful analysis appended to `chunk_analysis["files"]`. -/
def chunkFiles (analyze_file : String → Option FileResult)
    (chunk : RepoChunk) : List FileAnalysis :=
  chunk.files.filterMap
    (fun p => (analyze_file p).map
      (fun r => FileAnalysis.mk p r.quality_score r.issues r.language))

/-- `RepositoryAnalyzer._analyze_chunk`. -/
def _analyze_chunk (analyze_file : String → Option FileResult)
    (chunk : RepoChunk) : ChunkAnalysis :=
  { category := chunk.category
    file_count := chunk.files.length
    size_bytes := chunk.size_bytes
    files := chunkFiles analyze_file chunk
    summary := _summarize_chunk (chunkFiles analyze_file chunk)
    patterns := []
    issues := [] }

/-! ## `_synthesize_results` -/

/-- `chunk_summary.get("issue_summary", {})`. -/
def issuesOf (cr : ChunkResultEntry) : List (String × Nat) :=
  match cr.analysis.summary with
  | some s => s.issue_summary
  | none => []

/-- `chunk_summary.get("languages", [])`. -/
def langsOf (cr : ChunkResultEntry) : List String :=
  match cr.analysis.summary with
  | some s => s.languages
  | none => []

/-- `total_quality_scores`: every chunk whose summary carries
`average_quality` (that is, whose summary is non-empty) contributes it. -/
def total_quality_scores (chunk_results : List ChunkResultEntry) : List ℚ :=
  chunk_results.filterMap (fun cr => cr.analysis.summary.map (fun s => s.average_quality))

/-- Fold one chunk's issue histogram into the global `all_issues`. -/
def mergeIssues (acc : List (String × Nat)) (items : List (String × Nat)) :
    List (String × Nat) :=
  items.foldl (fun a p => dset a p.1 (dictGet a p.1 + p.2)) acc

/-- The global issue histogram `all_issues` of `_synthesize_results`. -/
def allIssues (chunk_results : List ChunkResultEntry) : List (String × Nat) :=
  chunk_results.foldl (fun acc cr => mergeIssues acc (issuesOf cr)) []

/-- The global language set `all_languages` of `_synthesize_results`. -/
def allLanguages (chunk_results : List ChunkResultEntry) : List String :=
  chunk_results.foldl (fun acc cr => (langsOf cr).foldl setInsert acc) []

/-- `repo_quality`: mean of the collected scores, `0` when none. -/
def repoQuality (chunk_results : List ChunkResultEntry) : ℚ :=
  let scores := total_quality_scores chunk_results
  if scores.isEmpty then 0 else scores.sum / (scores.length : ℚ)

/-- The `analysis_by_category` dictionary comprehension: one insertion per
chunk result, in list order. -/
def analysisByCategory (chunk_results : List ChunkResultEntry) :
    List (String × Option ChunkSummary) :=
  chunk_results.foldl
    (fun acc cr => dset acc cr.chunk_info.category cr.analysis.summary) []

/-! ## Insight and recommendation texts -/

def msgExcellent : String :=
  "🎯 Excellent code quality - repository shows strong engineering practices"

def msgGood : String :=
  "⚡ Good code quality with room for targeted improvements"

def msgAttention : String :=
  "🔧 Code quality needs attention - consider systematic refactoring"

def msgSecurity : String :=
  "🛡️ Security issues detected - prioritize security review"

def msgPerf : String :=
  "🚀 Performance optimization opportunities identified"

def msgNoTests : String :=
  "🧪 No test files detected - consider adding test coverage"

def msgLowCoverage : String :=
  "📊 Low test-to-code ratio - consider expanding test coverage"

/-- `RepositoryAnalyzer._generate_insights`. -/
def _generate_insights (chunk_results : List ChunkResultEntry) (repo_quality : ℚ)
    (all_issues : List (String × Nat)) : List String :=
  (if 8 ≤ repo_quality then [msgExcellent]
   else if 6 ≤ repo_quality then [msgGood] else [msgAttention])
  ++ (if dictHas all_issues "security" ∧ 5 < dictGet all_issues "security"
      then [msgSecurity] else [])
  ++ (if dictHas all_issues "performance" ∧ 10 < dictGet all_issues "performance"
      then [msgPerf] else [])
  ++ (if (chunk_results.filter (fun cr => cr.chunk_info.category = "tests")).length = 0
      then [msgNoTests]
      else if 0 < (chunk_results.filter (fun cr => cr.chunk_info.category = "core")).length ∧
          0 < (chunk_results.filter (fun cr => cr.chunk_info.category = "tests")).length ∧
          ((chunk_results.filter (fun cr => cr.chunk_info.category = "tests")).length : ℚ)
              / ((chunk_results.filter (fun cr => cr.chunk_info.category = "core")).length : ℚ)
            < 3 / 10
      then [msgLowCoverage] else [])

def recSecurity : String := "1. Address security vulnerabilities immediately"

def recQuality : String := "2. Implement code quality standards and linting"

def recStyle : String := "3. Set up automated code formatting (black, prettier)"

def recComplexity : String := "4. Refactor complex functions for better maintainability"

def recMonitor : String := "5. Set up continuous quality monitoring with BRIGADE"

/-- `RepositoryAnalyzer._generate_recommendations`. -/
def _generate_recommendations (all_issues : List (String × Nat))
    (repo_quality : ℚ) : List String :=
  (if dictHas all_issues "security" then [recSecurity] else [])
  ++ (if repo_quality < 6 then [recQuality] else [])
  ++ (if dictHas all_issues "style" ∧ 20 < dictGet all_issues "style"
      then [recStyle] else [])
  ++ (if dictHas all_issues "complexity" then [recComplexity] else [])
  ++ [recMonitor]

/-- The `repository_summary` mapping of the final analysis. -/
structure RepositorySummaryOut where
  total_files : Nat
  languages : List String
  structure_info : RepoStructure
  overall_quality : ℚ
deriving Repr, DecidableEq

/-- The final analysis dictionary returned by `analyze_repository`. -/
structure FinalAnalysis where
  repository_summary : RepositorySummaryOut
  analysis_by_category : List (String × Option ChunkSummary)
  issue_summary : List (String × Nat)
  insights : List String
  recommendations : List String
  chunk_details : List ChunkResultEntry
deriving Repr, DecidableEq

/-- `RepositoryAnalyzer._synthesize_results`. -/
def _synthesize_results (repo_summary : RepoSummary)
    (chunk_results : List ChunkResultEntry) : FinalAnalysis :=
  { repository_summary :=
      { total_files := repo_summary.total_files
        languages := allLanguages chunk_results
        structure_info := repo_summary.structure_info
        overall_quality := repoQuality chunk_results }
    analysis_by_category := analysisByCategory chunk_results
    issue_summary := allIssues chunk_results
    insights := _generate_insights chunk_results (repoQuality chunk_results)
      (allIssues chunk_results)
    recommendations := _generate_recommendations (allIssues chunk_results)
      (repoQuality chunk_results)
    chunk_details := chunk_results }

/-- Total count a histogram's entries contribute to key `t`; on a genuine
dictionary (unique keys) this equals the dictionary value at `t`. -/
def keySum : List (String × Nat) → String → Nat
  | [], _ => 0
  | p :: rest, t => (if p.1 = t then p.2 else 0) + keySum rest t

/-! ## Lemmas and claim theorems -/

lemma flatFiles_splitStep (B F : Nat) (c : String) (p : Nat) (st : SplitSt)
    (f : String × Nat) :
    flatFiles (splitStep B F c p st f) = flatFiles st ++ [f.1] := by
  obtain ⟨chunks, cur, size⟩ := st
  unfold splitStep
  split
  · cases cur <;> simp [flatFiles]
  · simp [flatFiles]

lemma flatFiles_foldl (B F : Nat) (c : String) (p : Nat)
    (files : List (String × Nat)) :
    ∀ st : SplitSt,
      flatFiles (files.foldl (splitStep B F c p) st)
        = flatFiles st ++ files.map Prod.fst := by
  induction files with
  | nil => intro st; simp
  | cons f rest ih =>
    intro st
    rw [List.foldl_cons, ih, flatFiles_splitStep]
    simp

lemma flatFiles_splitOut (c : String) (p : Nat) (st : SplitSt) :
    ((splitOut c p st).map RepoChunk.files).flatten = flatFiles st := by
  obtain ⟨chunks, cur, size⟩ := st
  unfold splitOut
  cases cur <;> simp [flatFiles]

lemma split_coverage (B F : Nat) (files : List (String × Nat)) (c : String)
    (p : Nat) :
    ((splitSizedFiles B F files c p).map RepoChunk.files).flatten
      = files.map Prod.fst := by
  unfold splitSizedFiles
  rw [flatFiles_splitOut, flatFiles_foldl]
  simp [flatFiles]

lemma splitStep_ok {B F : Nat} {c : String} {p : Nat} (hF : 1 ≤ F)
    {st : SplitSt} (f : String × Nat) (h : stOK B F st) :
    stOK B F (splitStep B F c p st f) := by
  obtain ⟨hchunks, hlen, hsize⟩ := h
  obtain ⟨chunks, cur, size⟩ := st
  unfold splitStep
  dsimp only at *
  split
  · refine ⟨?_, by simpa using hF, ?_⟩
    · intro ch hch
      dsimp only at hch
      split at hch
      · exact hchunks ch hch
      · rcases List.mem_append.1 hch with h1 | h1
        · exact hchunks ch h1
        · rcases List.mem_singleton.1 h1 with rfl
          exact ⟨hlen, hsize⟩
    · rcases le_or_lt f.2 B with hb | hb
      · exact Or.inl hb
      · exact Or.inr ⟨rfl, hb⟩
  · rename_i hcond
    rw [not_or] at hcond
    obtain ⟨h1, h2⟩ := hcond
    refine ⟨hchunks, ?_, ?_⟩
    · dsimp only
      simp only [List.length_append, List.length_cons, List.length_nil]
      omega
    · dsimp only
      exact Or.inl (by omega)

lemma foldl_ok {B F : Nat} {c : String} {p : Nat} (hF : 1 ≤ F)
    (files : List (String × Nat)) :
    ∀ st : SplitSt, stOK B F st → stOK B F (files.foldl (splitStep B F c p) st) := by
  induction files with
  | nil => intro st h; exact h
  | cons f rest ih =>
    intro st h
    exact ih _ (splitStep_ok hF f h)

lemma splitOut_ok {B F : Nat} {c : String} {p : Nat} {st : SplitSt}
    (h : stOK B F st) : ∀ ch ∈ splitOut c p st, chunkOK B F ch := by
  obtain ⟨hchunks, hlen, hsize⟩ := h
  intro ch hch
  unfold splitOut at hch
  split at hch
  · exact hchunks ch hch
  · rcases List.mem_append.1 hch with h1 | h1
    · exact hchunks ch h1
    · rcases List.mem_singleton.1 h1 with rfl
      exact ⟨hlen, hsize⟩

lemma splitStep_chunks_subset (B F : Nat) (c : String) (p : Nat) (st : SplitSt)
    (f : String × Nat) : st.chunks ⊆ (splitStep B F c p st f).chunks := by
  unfold splitStep
  split
  · dsimp only
    split
    · exact fun x hx => hx
    · exact List.subset_append_left _ _
  · exact fun x hx => hx

lemma foldl_chunks_subset (B F : Nat) (c : String) (p : Nat)
    (files : List (String × Nat)) :
    ∀ st : SplitSt, st.chunks ⊆ (files.foldl (splitStep B F c p) st).chunks := by
  induction files with
  | nil => intro st; exact fun x hx => hx
  | cons f rest ih =>
    intro st
    exact fun x hx => ih _ (splitStep_chunks_subset B F c p st f hx)

lemma splitOut_chunks_subset (c : String) (p : Nat) (st : SplitSt) :
    st.chunks ⊆ splitOut c p st := by
  unfold splitOut
  split
  · exact fun x hx => hx
  · exact List.subset_append_left _ _

lemma oversized_run {B F : Nat} {c : String} {p : Nat} {f : String × Nat}
    (hb : B < f.2) (files : List (String × Nat)) :
    ∀ st : SplitSt, st.current_chunk = [f.1] → st.current_size = f.2 →
      RepoChunk.mk [f.1] f.2 c p ∈ splitOut c p (files.foldl (splitStep B F c p) st) := by
  induction files with
  | nil =>
    intro st hcur hsz
    obtain ⟨chunks, cur, size⟩ := st
    dsimp only at hcur hsz
    subst hcur hsz
    unfold splitOut
    simp
  | cons g rest ih =>
    intro st hcur hsz
    rw [List.foldl_cons]
    have hstep : (splitStep B F c p st g).chunks
        = st.chunks ++ [RepoChunk.mk [f.1] f.2 c p] := by
      obtain ⟨chunks, cur, size⟩ := st
      dsimp only at hcur hsz
      subst hcur hsz
      unfold splitStep
      rw [if_pos (Or.inl (show B < _ by dsimp only; omega))]
      simp
    have hmem : RepoChunk.mk [f.1] f.2 c p ∈ (splitStep B F c p st g).chunks := by
      rw [hstep]; simp
    exact splitOut_chunks_subset c p _
      (foldl_chunks_subset B F c p rest (splitStep B F c p st g) hmem)

lemma oversized_mem {B F : Nat} {c : String} {p : Nat} {f : String × Nat}
    (hb : B < f.2) (files : List (String × Nat)) :
    ∀ st : SplitSt, f ∈ files →
      RepoChunk.mk [f.1] f.2 c p ∈ splitOut c p (files.foldl (splitStep B F c p) st) := by
  induction files with
  | nil => intro st h; exact absurd h (List.not_mem_nil f)
  | cons g rest ih =>
    intro st hmem
    rcases List.mem_cons.1 hmem with rfl | hmem
    · rw [List.foldl_cons]
      have hcur : (splitStep B F c p st f).current_chunk = [f.1] ∧
          (splitStep B F c p st f).current_size = f.2 := by
        unfold splitStep
        rw [if_pos (Or.inl (by omega))]
        exact ⟨rfl, rfl⟩
      exact oversized_run hb rest _ hcur.1 hcur.2
    · rw [List.foldl_cons]
      exact ih _ hmem

/-! ## Bridging the re-stat loop to the sized fold -/

lemma foldl_splitStatStep (stat : String → Option Nat) (B F : Nat) (c : String)
    (p : Nat) (files : List String) :
    ∀ st : SplitSt,
      files.foldl (splitStatStep stat B F c p) st
        = (stattedFiles stat files).foldl (splitStep B F c p) st := by
  induction files with
  | nil => intro st; rfl
  | cons q rest ih =>
    intro st
    rw [List.foldl_cons]
    cases h : stat q with
    | none =>
      rw [show splitStatStep stat B F c p st q = st from by
            unfold splitStatStep; rw [h]]
      rw [ih st]
      rw [show stattedFiles stat (q :: rest) = stattedFiles stat rest from by
            simp [stattedFiles, List.filterMap_cons, h]]
    | some sz =>
      rw [show splitStatStep stat B F c p st q
            = splitStep B F c p st (q, sz) from by
            unfold splitStatStep; rw [h]]
      rw [ih _]
      rw [show stattedFiles stat (q :: rest)
            = (q, sz) :: stattedFiles stat rest from by
            simp [stattedFiles, List.filterMap_cons, h]]
      rw [List.foldl_cons]

lemma split_eq_statted (stat : String → Option Nat) (B F : Nat)
    (files : List String) (c : String) (p : Nat) :
    _split_files_into_chunks stat B F files c p
      = splitSizedFiles B F (stattedFiles stat files) c p := by
  unfold _split_files_into_chunks splitSizedFiles
  rw [foldl_splitStatStep]

lemma map_fst_stattedFiles (stat : String → Option Nat) (files : List String) :
    (stattedFiles stat files).map Prod.fst
      = files.filter (fun q => (stat q).isSome) := by
  unfold stattedFiles
  induction files with
  | nil => rfl
  | cons q rest ih =>
    rw [List.filterMap_cons, List.filter_cons]
    cases h : stat q with
    | none => simpa [h] using ih
    | some sz => simpa [h] using ih

/-! ## Claims about the chunk builder -/

/-- C1 counterexample: with byte budget 50000, file-count budget 20 and the
three files statting to sizes 10000, 45000 and 6000, the chunk builder does
NOT emit the two chunks the claim describes (chunk A = [file1] of 10000,
chunk B = [file2, file3] of 51000): adding file3 to the chunk holding file2
would reach 51000 > 50000, so file3 is split off as well. -/
theorem claim1_counterexample :
    _split_files_into_chunks
        (fun q => if q = "file1" then some 10000
          else if q = "file2" then some 45000 else some 6000)
        50000 20 ["file1", "file2", "file3"] "core" 1
      ≠ [⟨["file1"], 10000, "core", 1⟩, ⟨["file2", "file3"], 51000, "core", 1⟩] := by
  decide

/-- C1 amended: with byte budget 50000, file-count budget 20 and the three
files statting to sizes 10000, 45000 and 6000, the chunk builder emits exactly
three chunks, [file1] of accumulated size 10000, [file2] of 45000 and [file3]
of 6000 — each later file would push the running total past the budget, so
each starts a fresh chunk. -/
theorem claim1_theorem :
    _split_files_into_chunks
        (fun q => if q = "file1" then some 10000
          else if q = "file2" then some 45000 else some 6000)
        50000 20 ["file1", "file2", "file3"] "core" 1
      = [⟨["file1"], 10000, "core", 1⟩, ⟨["file2"], 45000, "core", 1⟩,
         ⟨["file3"], 6000, "core", 1⟩] := by
  decide

/-- C2 counterexample: with file-count budget `F = 0` the chunk builder still
emits one-file chunks, so a chunk holds 1 > F files and the file-count bound of
the claim (which quantifies over every file-count budget) fails while the
oversized-singleton exception covers only the byte bound. -/
theorem claim2_counterexample :
    ¬ (∀ ch ∈ _split_files_into_chunks (fun _ => some 10) 50000 0 ["a"] "core" 1,
        ch.files.length ≤ 0) := by
  decide

/-- C2 amended: for every byte budget `B`, file-count budget `F ≥ 1`, input
list and outcome of the per-file re-stat, every emitted chunk has at most `F`
files and byte size at most `B` unless it is a singleton holding one file
whose statted size exceeds `B`; and every file whose re-stat succeeds with a
size exceeding `B` is still emitted, alone, as its own one-file chunk — it is
not rejected for its size. -/
theorem claim2_theorem (stat : String → Option Nat) (B F : Nat)
    (files : List String) (c : String) (p : Nat) (hF : 1 ≤ F) :
    (∀ ch ∈ _split_files_into_chunks stat B F files c p,
        ch.files.length ≤ F ∧
          (ch.size_bytes ≤ B ∨ (ch.files.length = 1 ∧ B < ch.size_bytes))) ∧
    (∀ q sz, q ∈ files → stat q = some sz → B < sz →
        RepoChunk.mk [q] sz c p ∈ _split_files_into_chunks stat B F files c p) := by
  constructor
  · intro ch hch
    rw [split_eq_statted] at hch
    unfold splitSizedFiles at hch
    have h0 : stOK B F (⟨[], [], 0⟩ : SplitSt) := by
      refine ⟨?_, ?_, Or.inl ?_⟩ <;> simp
    exact splitOut_ok (foldl_ok hF (stattedFiles stat files) _ h0) ch hch
  · intro q sz hq hstat hb
    rw [split_eq_statted]
    unfold splitSizedFiles
    have hmem : ((q, sz) : String × Nat) ∈ stattedFiles stat files := by
      unfold stattedFiles
      rw [List.mem_filterMap]
      exact ⟨q, hq, by rw [hstat]; rfl⟩
    exact oversized_mem hb (stattedFiles stat files) _ hmem

/-- C2 witness: the spec's own oversized-file scenario — one file statting to
2,000,000 bytes against a 50000-byte budget with file-count budget 20 — is an
instance of the amended claim: the file is emitted alone in a one-file chunk. -/
theorem claim2_witness :
    1 ≤ 20 ∧
    ((∀ ch ∈ _split_files_into_chunks (fun _ => some 2000000) 50000 20
          ["big"] "core" 1,
        ch.files.length ≤ 20 ∧
          (ch.size_bytes ≤ 50000 ∨ (ch.files.length = 1 ∧ 50000 < ch.size_bytes))) ∧
     (∀ q sz, q ∈ ["big"] →
        (fun _ => some 2000000 : String → Option Nat) q = some sz → 50000 < sz →
        RepoChunk.mk [q] sz "core" 1
          ∈ _split_files_into_chunks (fun _ => some 2000000) 50000 20
              ["big"] "core" 1)) :=
  ⟨by decide,
   claim2_theorem (fun _ => some 2000000) 50000 20 ["big"] "core" 1 (by decide)⟩

/-- C3 counterexample: a file whose re-stat raises `OSError` (for instance a
relative path resolved against a different working directory, or a file
deleted between discovery and chunking) is silently dropped: with two input
files of which the second fails to stat, the concatenation of the emitted
chunks' file lists is ["a"], not the input list ["a", "gone"], and the failed
file appears in no chunk. -/
theorem claim3_counterexample :
    ((_split_files_into_chunks (fun q => if q = "gone" then none else some 10)
        50000 20 ["a", "gone"] "core" 1).map RepoChunk.files).flatten
      ≠ ["a", "gone"] ∧
    "gone" ∉ ((_split_files_into_chunks
        (fun q => if q = "gone" then none else some 10)
        50000 20 ["a", "gone"] "core" 1).map RepoChunk.files).flatten := by
  decide

/-- C3 amended: for every category, budgets and re-stat outcome, the
concatenation of the file lists of all emitted chunks equals exactly, in
order, the sublist of the category's input files whose re-stat succeeds —
each such file appears in exactly one chunk, exactly once; a file whose
re-stat raises `OSError` is silently dropped and appears in no chunk. -/
theorem claim3_theorem (stat : String → Option Nat) (B F : Nat)
    (files : List String) (c : String) (p : Nat) :
    ((_split_files_into_chunks stat B F files c p).map RepoChunk.files).flatten
      = files.filter (fun q => (stat q).isSome) := by
  rw [split_eq_statted, split_coverage, map_fst_stattedFiles]

/-- C7: the categorizer lowercases the path before matching, but the config
marker list contains the capitalized literal `Dockerfile`, which therefore can
never match; the path `Dockerfile` contains a configuration marker and does not
match the test rule, yet it is categorized `docs` (via the `doc` substring of
`dockerfile`), not `config`. -/
theorem claim7_theorem :
    _categorize_file "Dockerfile" = "docs" ∧
      _categorize_file "Dockerfile" ≠ "config" ∧
      strIn "dockerfile" (strLower "Dockerfile") = true := by
  decide


/-! ## Dictionary lemmas -/

lemma dget?_dset_self {α : Type} (d : List (String × α)) (k : String) (v : α) :
    dget? (dset d k v) k = some v := by
  induction d with
  | nil => simp [dset, dget?]
  | cons p rest ih =>
    by_cases hp : p.1 = k
    · simp [dset, hp, dget?]
    · simp [dset, hp, dget?, ih]

lemma dget?_dset_ne {α : Type} (d : List (String × α)) {k k' : String} (v : α)
    (h : k' ≠ k) : dget? (dset d k v) k' = dget? d k' := by
  have hk : ¬ k = k' := fun hh => h hh.symm
  induction d with
  | nil => simp [dset, dget?, hk]
  | cons p rest ih =>
    by_cases hp : p.1 = k
    · have hp' : ¬ p.1 = k' := by rw [hp]; exact hk
      simp [dset, hp, dget?, hk, hp']
    · by_cases hp' : p.1 = k'
      · simp [dset, hp, dget?, hp', hk, h]
      · simp [dset, hp, dget?, hp', ih]

lemma dictGet_mergeIssues (items : List (String × Nat)) :
    ∀ (acc : List (String × Nat)) (t : String),
      dictGet (mergeIssues acc items) t = dictGet acc t + keySum items t := by
  induction items with
  | nil => intro acc t; simp [mergeIssues, keySum]
  | cons p rest ih =>
    intro acc t
    show dictGet (mergeIssues (dset acc p.1 (dictGet acc p.1 + p.2)) rest) t = _
    rw [ih]
    show _ = dictGet acc t + ((if p.1 = t then p.2 else 0) + keySum rest t)
    by_cases h : t = p.1
    · subst h
      rw [show dictGet (dset acc p.1 (dictGet acc p.1 + p.2)) p.1
            = dictGet acc p.1 + p.2 from by
            unfold dictGet; rw [dget?_dset_self]; rfl]
      rw [if_pos rfl]
      omega
    · rw [show dictGet (dset acc p.1 (dictGet acc p.1 + p.2)) t = dictGet acc t from by
            unfold dictGet; rw [dget?_dset_ne _ _ h]]
      rw [if_neg (fun hh => h hh.symm)]
      omega

lemma dictGet_allIssues_aux (crs : List ChunkResultEntry) :
    ∀ (acc : List (String × Nat)) (t : String),
      dictGet (crs.foldl (fun a cr => mergeIssues a (issuesOf cr)) acc) t
        = dictGet acc t + (crs.map (fun cr => keySum (issuesOf cr) t)).sum := by
  induction crs with
  | nil => intro acc t; simp
  | cons cr rest ih =>
    intro acc t
    rw [List.foldl_cons, ih, dictGet_mergeIssues]
    simp [Nat.add_assoc]

lemma dictGet_allIssues (crs : List ChunkResultEntry) (t : String) :
    dictGet (allIssues crs) t = (crs.map (fun cr => keySum (issuesOf cr) t)).sum := by
  unfold allIssues
  rw [dictGet_allIssues_aux]
  simp [dictGet, dget?]

lemma keySum_eq_zero {d : List (String × Nat)} {t : String}
    (h : t ∉ d.map Prod.fst) : keySum d t = 0 := by
  induction d with
  | nil => rfl
  | cons p rest ih =>
    simp only [List.map_cons, List.mem_cons, not_or] at h
    show (if p.1 = t then p.2 else 0) + keySum rest t = 0
    rw [if_neg (fun hh => h.1 hh.symm), ih h.2]

lemma keySum_eq_dictGet {d : List (String × Nat)} (t : String)
    (h : (d.map Prod.fst).Nodup) : keySum d t = dictGet d t := by
  induction d with
  | nil => rfl
  | cons p rest ih =>
    simp only [List.map_cons, List.nodup_cons] at h
    show (if p.1 = t then p.2 else 0) + keySum rest t = dictGet (p :: rest) t
    by_cases hp : p.1 = t
    · rw [if_pos hp]
      have hz : keySum rest t = 0 := keySum_eq_zero (hp ▸ h.1)
      rw [hz]
      simp [dictGet, dget?, hp]
    · rw [if_neg hp, ih h.2]
      simp [dictGet, dget?, hp]

lemma total_quality_scores_eq (crs : List ChunkResultEntry) :
    total_quality_scores crs
      = (crs.filter (fun cr => cr.analysis.summary.isSome)).map
          (fun cr => ((cr.analysis.summary).map (fun s => s.average_quality)).getD 0) := by
  induction crs with
  | nil => rfl
  | cons cr rest ih =>
    unfold total_quality_scores at ih ⊢
    rw [List.filterMap_cons, List.filter_cons]
    cases h : cr.analysis.summary with
    | none => simp [h]; exact ih
    | some s => simpa [h] using ih

/-! ## Claims about the synthesizer -/

/-- C4: given genuine per-chunk histograms (unique keys, as Python dicts
guarantee), the synthesized `issue_summary` at every issue type equals the sum
over all chunks of that chunk's histogram value, and `overall_quality` equals
the arithmetic mean of the `average_quality` of the chunks whose summary is
non-empty, with `0` when no chunk contributed a score. -/
theorem claim4_theorem (rs : RepoSummary) (crs : List ChunkResultEntry)
    (h : ∀ cr ∈ crs, ((issuesOf cr).map Prod.fst).Nodup) :
    (∀ t, dictGet (_synthesize_results rs crs).issue_summary t
        = (crs.map (fun cr => dictGet (issuesOf cr) t)).sum) ∧
    (_synthesize_results rs crs).repository_summary.overall_quality
        = (if (crs.filter (fun cr => cr.analysis.summary.isSome)) = [] then 0
           else ((crs.filter (fun cr => cr.analysis.summary.isSome)).map
                   (fun cr => ((cr.analysis.summary).map
                     (fun s => s.average_quality)).getD 0)).sum
             / (((crs.filter (fun cr => cr.analysis.summary.isSome)).length : ℚ))) := by
  constructor
  · intro t
    show dictGet (allIssues crs) t = _
    rw [dictGet_allIssues]
    congr 1
    exact List.map_congr_left (fun cr hcr => keySum_eq_dictGet t (h cr hcr))
  · show repoQuality crs = _
    unfold repoQuality
    rw [total_quality_scores_eq]
    by_cases hf : (crs.filter (fun cr => cr.analysis.summary.isSome)) = []
    · simp [hf]
    · simp only [hf, if_neg hf, List.isEmpty_iff, List.map_eq_nil_iff]
      rw [if_neg (by simp [List.map_eq_nil_iff, hf])]
      simp

/-- C4 witness: two chunks with non-empty summaries (qualities 8 and 6, style
counts 2 and 1, one security issue) instantiate the aggregation theorem. -/
theorem claim4_witness :
    (∀ cr ∈ [ChunkResultEntry.mk ⟨["a.py"], 10, "core", 1⟩
               ⟨"core", 1, 10, [], some ⟨1, 8, [("style", 2)], ["python"]⟩, [], []⟩,
             ChunkResultEntry.mk ⟨["b.py"], 20, "core", 1⟩
               ⟨"core", 1, 20, [], some ⟨1, 6, [("style", 1), ("security", 1)],
                 ["python"]⟩, [], []⟩],
        ((issuesOf cr).map Prod.fst).Nodup) ∧
    ((∀ t, dictGet (_synthesize_results ⟨2, [], ⟨[], 2, []⟩, [], []⟩
          [ChunkResultEntry.mk ⟨["a.py"], 10, "core", 1⟩
             ⟨"core", 1, 10, [], some ⟨1, 8, [("style", 2)], ["python"]⟩, [], []⟩,
           ChunkResultEntry.mk ⟨["b.py"], 20, "core", 1⟩
             ⟨"core", 1, 20, [], some ⟨1, 6, [("style", 1), ("security", 1)],
               ["python"]⟩, [], []⟩]).issue_summary t
        = ([ChunkResultEntry.mk ⟨["a.py"], 10, "core", 1⟩
              ⟨"core", 1, 10, [], some ⟨1, 8, [("style", 2)], ["python"]⟩, [], []⟩,
            ChunkResultEntry.mk ⟨["b.py"], 20, "core", 1⟩
              ⟨"core", 1, 20, [], some ⟨1, 6, [("style", 1), ("security", 1)],
                ["python"]⟩, [], []⟩].map
             (fun cr => dictGet (issuesOf cr) t)).sum) ∧
     (_synthesize_results ⟨2, [], ⟨[], 2, []⟩, [], []⟩
          [ChunkResultEntry.mk ⟨["a.py"], 10, "core", 1⟩
             ⟨"core", 1, 10, [], some ⟨1, 8, [("style", 2)], ["python"]⟩, [], []⟩,
           ChunkResultEntry.mk ⟨["b.py"], 20, "core", 1⟩
             ⟨"core", 1, 20, [], some ⟨1, 6, [("style", 1), ("security", 1)],
               ["python"]⟩, [], []⟩]).repository_summary.overall_quality
        = (if (([ChunkResultEntry.mk ⟨["a.py"], 10, "core", 1⟩
                   ⟨"core", 1, 10, [], some ⟨1, 8, [("style", 2)], ["python"]⟩, [], []⟩,
                 ChunkResultEntry.mk ⟨["b.py"], 20, "core", 1⟩
                   ⟨"core", 1, 20, [], some ⟨1, 6, [("style", 1), ("security", 1)],
                     ["python"]⟩, [], []⟩]).filter
                  (fun cr => cr.analysis.summary.isSome)) = [] then 0
           else ((([ChunkResultEntry.mk ⟨["a.py"], 10, "core", 1⟩
                   ⟨"core", 1, 10, [], some ⟨1, 8, [("style", 2)], ["python"]⟩, [], []⟩,
                 ChunkResultEntry.mk ⟨["b.py"], 20, "core", 1⟩
                   ⟨"core", 1, 20, [], some ⟨1, 6, [("style", 1), ("security", 1)],
                     ["python"]⟩, [], []⟩]).filter
                  (fun cr => cr.analysis.summary.isSome)).map
                   (fun cr => ((cr.analysis.summary).map
                     (fun s => s.average_quality)).getD 0)).sum
             / (((([ChunkResultEntry.mk ⟨["a.py"], 10, "core", 1⟩
                   ⟨"core", 1, 10, [], some ⟨1, 8, [("style", 2)], ["python"]⟩, [], []⟩,
                 ChunkResultEntry.mk ⟨["b.py"], 20, "core", 1⟩
                   ⟨"core", 1, 20, [], some ⟨1, 6, [("style", 1), ("security", 1)],
                     ["python"]⟩, [], []⟩]).filter
                  (fun cr => cr.analysis.summary.isSome)).length : ℚ)))) :=
  ⟨by decide, claim4_theorem ⟨2, [], ⟨[], 2, []⟩, [], []⟩ _ (by decide)⟩

/-! ## Last-write-wins lemma for `analysis_by_category` -/

lemma dget?_catFold (crs : List ChunkResultEntry) :
    ∀ (acc : List (String × Option ChunkSummary)) (cat : String),
      dget? (crs.foldl
          (fun a cr => dset a cr.chunk_info.category cr.analysis.summary) acc) cat
        = (((crs.filter (fun cr => cr.chunk_info.category = cat)).getLast?).map
            (fun cr => cr.analysis.summary)).or (dget? acc cat) := by
  induction crs with
  | nil => intro acc cat; simp
  | cons cr rest ih =>
    intro acc cat
    rw [List.foldl_cons, ih, List.filter_cons]
    by_cases hc : cr.chunk_info.category = cat
    · rw [if_pos (by simp [hc])]
      cases hrest : rest.filter (fun cr => decide (cr.chunk_info.category = cat)) with
      | nil =>
        show dget? (dset acc cr.chunk_info.category cr.analysis.summary) cat
          = some cr.analysis.summary
        rw [← hc]
        exact dget?_dset_self acc cr.chunk_info.category cr.analysis.summary
      | cons x xs =>
        rw [List.getLast?_cons_cons]
        cases hgl : (x :: xs).getLast? with
        | none => exact absurd hgl (by simp)
        | some y => rfl
    · rw [if_neg (by simp [hc])]
      have hc' : cat ≠ cr.chunk_info.category := fun hh => hc hh.symm
      rw [dget?_dset_ne acc cr.analysis.summary hc']

/-- C5: in the synthesized `analysis_by_category` mapping, each category is
bound to the summary of the *last* chunk of that category in the collected
result list: with several chunks of one category, earlier summaries are
silently overwritten by later ones, with no merging. -/
theorem claim5_theorem (rs : RepoSummary) (crs : List ChunkResultEntry)
    (cat : String) :
    dget? ((_synthesize_results rs crs).analysis_by_category) cat
      = ((crs.filter (fun cr => cr.chunk_info.category = cat)).getLast?).map
          (fun cr => cr.analysis.summary) := by
  show dget? (analysisByCategory crs) cat = _
  unfold analysisByCategory
  rw [dget?_catFold]
  simp [dget?]

/-! ## Claims about insights and failure isolation -/

/-- C6 counterexample: with no chunk results at all — zero `tests` chunks AND
zero `core` chunks — `_generate_insights` still emits the no-test-files
insight, because the code only checks `len(test_chunks) == 0` and never
consults the core chunk count; the claim says the insight must not appear
here. -/
theorem claim6_counterexample :
    msgNoTests ∈ _generate_insights [] 0 [] ∧
      (([] : List ChunkResultEntry).filter
        (fun cr => cr.chunk_info.category = "tests")).length = 0 ∧
      (([] : List ChunkResultEntry).filter
        (fun cr => cr.chunk_info.category = "core")).length = 0 := by
  decide

/-- C6 amended: the no-test-files insight is emitted exactly when zero chunk
results are categorized `tests`, regardless of how many `core` chunks exist. -/
theorem claim6_theorem (crs : List ChunkResultEntry) (q : ℚ)
    (issues : List (String × Nat)) :
    msgNoTests ∈ _generate_insights crs q issues ↔
      (crs.filter (fun cr => cr.chunk_info.category = "tests")).length = 0 := by
  have hne1 : msgNoTests ≠ msgExcellent := by decide
  have hne2 : msgNoTests ≠ msgGood := by decide
  have hne3 : msgNoTests ≠ msgAttention := by decide
  have hne4 : msgNoTests ≠ msgSecurity := by decide
  have hne5 : msgNoTests ≠ msgPerf := by decide
  have hne6 : msgNoTests ≠ msgLowCoverage := by decide
  unfold _generate_insights
  simp only [List.mem_append]
  constructor
  · intro hmem
    rcases hmem with ((h | h) | h) | h
    · exfalso
      revert h
      split
      · simp [hne1]
      · split
        · simp [hne2]
        · simp [hne3]
    · exfalso
      revert h
      split
      · simp [hne4]
      · simp
    · exfalso
      revert h
      split
      · simp [hne5]
      · simp
    · revert h
      split
      · intro _
        assumption
      · split
        · intro hh
          exact absurd (List.mem_singleton.1 hh) hne6
        · intro hh
          exact absurd hh (List.not_mem_nil _)
  · intro htest
    refine Or.inr ?_
    rw [if_pos htest]
    exact List.mem_singleton_self _

/-- C8: a per-file analyzer failure for file `x` in a chunk leaves `x` out of
the chunk's per-file results while every file the analyzer succeeds on
contributes exactly its analyzer output; the chunk's analysis is a total
function, so no exception escapes it. -/
theorem claim8_theorem (analyze_file : String → Option FileResult)
    (chunk : RepoChunk) (x : String) (hx : x ∈ chunk.files)
    (hfail : analyze_file x = none) :
    x ∉ ((_analyze_chunk analyze_file chunk).files.map FileAnalysis.path) ∧
    (∀ y r, y ∈ chunk.files → analyze_file y = some r →
      FileAnalysis.mk y r.quality_score r.issues r.language
        ∈ (_analyze_chunk analyze_file chunk).files) := by
  constructor
  · intro hmem
    rw [List.mem_map] at hmem
    obtain ⟨fa, hfa, hpath⟩ := hmem
    have hfa' : fa ∈ chunkFiles analyze_file chunk := hfa
    unfold chunkFiles at hfa'
    rw [List.mem_filterMap] at hfa'
    obtain ⟨p, hp, hsome⟩ := hfa'
    rcases Option.map_eq_some'.1 hsome with ⟨r, hr, rfl⟩
    dsimp only at hpath
    subst hpath
    rw [hfail] at hr
    exact Option.noConfusion hr
  · intro y r hy hr
    show FileAnalysis.mk y r.quality_score r.issues r.language
      ∈ chunkFiles analyze_file chunk
    unfold chunkFiles
    rw [List.mem_filterMap]
    exact ⟨y, hy, by rw [hr]; rfl⟩

/-- C8 witness: a three-file chunk whose analyzer fails exactly on the middle
file still yields results for the two surviving files and omits the failed
one. -/
theorem claim8_witness :
    "bad" ∈ (RepoChunk.mk ["a", "bad", "b"] 30 "core" 1).files ∧
    (fun p => if p = "bad" then none
      else some (FileResult.mk 5 [] "python")) "bad" = none ∧
    ("bad" ∉ ((_analyze_chunk
        (fun p => if p = "bad" then none else some (FileResult.mk 5 [] "python"))
        (RepoChunk.mk ["a", "bad", "b"] 30 "core" 1)).files.map FileAnalysis.path) ∧
     (∀ y r, y ∈ (RepoChunk.mk ["a", "bad", "b"] 30 "core" 1).files →
        (fun p => if p = "bad" then none
          else some (FileResult.mk 5 [] "python")) y = some r →
        FileAnalysis.mk y r.quality_score r.issues r.language
          ∈ (_analyze_chunk
              (fun p => if p = "bad" then none else some (FileResult.mk 5 [] "python"))
              (RepoChunk.mk ["a", "bad", "b"] 30 "core" 1)).files)) :=
  ⟨by decide, by rfl,
   claim8_theorem
     (fun p => if p = "bad" then none else some (FileResult.mk 5 [] "python"))
     (RepoChunk.mk ["a", "bad", "b"] 30 "core" 1) "bad" (by decide) (by rfl)⟩

/-! ## Language-set lemmas -/

lemma mem_setInsert (s : List String) (y x : String) :
    x ∈ setInsert s y ↔ x ∈ s ∨ x = y := by
  unfold setInsert
  split
  · rename_i hy
    constructor
    · exact Or.inl
    · rintro (h | rfl)
      · exact h
      · exact hy
  · simp [List.mem_append]

lemma mem_foldl_setInsert (l : List String) :
    ∀ (acc : List String) (x : String),
      x ∈ l.foldl setInsert acc ↔ x ∈ acc ∨ x ∈ l := by
  induction l with
  | nil => intro acc x; simp
  | cons y rest ih =>
    intro acc x
    rw [List.foldl_cons, ih, mem_setInsert]
    simp only [List.mem_cons]
    tauto

lemma nodup_setInsert (s : List String) (x : String) (h : s.Nodup) :
    (setInsert s x).Nodup := by
  unfold setInsert
  split
  · exact h
  · rename_i hmem
    rw [List.nodup_append]
    exact ⟨h, List.nodup_singleton x,
      fun a ha hax => hmem ((List.mem_singleton.1 hax) ▸ ha)⟩

lemma nodup_foldl_setInsert (l : List String) :
    ∀ acc : List String, acc.Nodup → (l.foldl setInsert acc).Nodup := by
  induction l with
  | nil => intro acc h; exact h
  | cons y rest ih =>
    intro acc h
    exact ih _ (nodup_setInsert acc y h)

lemma mem_allLanguages (crs : List ChunkResultEntry) :
    ∀ (acc : List String) (x : String),
      x ∈ crs.foldl (fun a cr => (langsOf cr).foldl setInsert a) acc ↔
        x ∈ acc ∨ ∃ cr ∈ crs, x ∈ langsOf cr := by
  induction crs with
  | nil => intro acc x; simp
  | cons cr rest ih =>
    intro acc x
    rw [List.foldl_cons, ih, mem_foldl_setInsert]
    simp only [List.mem_cons]
    constructor
    · rintro ((h | h) | ⟨c, hc, hx⟩)
      · exact Or.inl h
      · exact Or.inr ⟨cr, Or.inl rfl, h⟩
      · exact Or.inr ⟨c, Or.inr hc, hx⟩
    · rintro (h | ⟨c, hc | hc, hx⟩)
      · exact Or.inl (Or.inl h)
      · exact Or.inl (Or.inr (hc ▸ hx))
      · exact Or.inr ⟨c, hc, hx⟩

lemma nodup_langFold (l : List ChunkResultEntry) :
    ∀ acc : List String, acc.Nodup →
      (l.foldl (fun a cr => (langsOf cr).foldl setInsert a) acc).Nodup := by
  induction l with
  | nil => intro acc h; exact h
  | cons cr rest ih =>
    intro acc h
    exact ih _ (nodup_foldl_setInsert (langsOf cr) acc h)

lemma nodup_allLanguages (crs : List ChunkResultEntry) :
    (allLanguages crs).Nodup := by
  unfold allLanguages
  exact nodup_langFold crs [] List.nodup_nil

/-! ## Claims about the language view -/

/-- C9 counterexample: the `languages` field the caller receives in
`repository_summary` is a duplicate-free list of language names with no
counts: two chunk results both reporting `python` produce exactly the same
one-element `languages` value as a single chunk reporting `python`, so the
field cannot map each language to a count. -/
theorem claim9_counterexample :
    (_synthesize_results ⟨2, [], ⟨[], 2, []⟩, [], []⟩
        [⟨⟨["a.py"], 10, "core", 1⟩,
          ⟨"core", 1, 10, [], some ⟨1, 8, [], ["python"]⟩, [], []⟩⟩,
         ⟨⟨["b.py"], 20, "core", 1⟩,
          ⟨"core", 1, 20, [], some ⟨1, 6, [], ["python"]⟩, [], []⟩⟩]
      ).repository_summary.languages = ["python"] ∧
    (_synthesize_results ⟨1, [], ⟨[], 1, []⟩, [], []⟩
        [⟨⟨["a.py"], 10, "core", 1⟩,
          ⟨"core", 1, 10, [], some ⟨1, 8, [], ["python"]⟩, [], []⟩⟩]
      ).repository_summary.languages = ["python"] := by
  decide

/-- C9 amended: the `languages` field of the returned `repository_summary` is
the merge of every chunk's language set into one global set: a duplicate-free
list containing a language exactly when some chunk's summary lists it — a set,
not a language-to-count histogram (the extension-count histogram lives
separately under the summary's `structure`). -/
theorem claim9_theorem (rs : RepoSummary) (crs : List ChunkResultEntry) :
    (∀ x, x ∈ (_synthesize_results rs crs).repository_summary.languages ↔
        ∃ cr ∈ crs, x ∈ langsOf cr) ∧
    (_synthesize_results rs crs).repository_summary.languages.Nodup := by
  constructor
  · intro x
    show x ∈ allLanguages crs ↔ _
    unfold allLanguages
    rw [mem_allLanguages]
    simp
  · exact nodup_allLanguages crs

/-! ## Claims about the failure counters -/

lemma length_chunkFiles (analyze_file : String → Option FileResult)
    (chunk : RepoChunk) :
    (chunkFiles analyze_file chunk).length
      = (chunk.files.filter (fun p => (analyze_file p).isSome)).length := by
  unfold chunkFiles
  induction chunk.files with
  | nil => rfl
  | cons p rest ih =>
    rw [List.filterMap_cons, List.filter_cons]
    cases h : analyze_file p with
    | none => simpa [h] using ih
    | some r => simpa [h] using ih

/-- C10: the chunk analysis reports two counters — the top-level `file_count`
is the number of files assigned to the chunk, failures included, while the
summary's `file_count` counts only successfully analyzed files (the summary is
empty exactly when no file succeeded); after any per-file failure the two
counts differ, and apart from the shorter per-file list and the summary
derived from it (identical successes give identical `files` and `summary`),
nothing else in the analysis records the failures. -/
theorem claim10_theorem (analyze_file : String → Option FileResult)
    (chunk : RepoChunk) :
    (_analyze_chunk analyze_file chunk).file_count = chunk.files.length ∧
    (∀ s, (_analyze_chunk analyze_file chunk).summary = some s →
        s.file_count
          = (chunk.files.filter (fun p => (analyze_file p).isSome)).length) ∧
    ((_analyze_chunk analyze_file chunk).summary = none →
        (chunk.files.filter (fun p => (analyze_file p).isSome)).length = 0) ∧
    ((chunk.files.filter (fun p => (analyze_file p).isSome)).length
        < chunk.files.length →
      ∀ s, (_analyze_chunk analyze_file chunk).summary = some s →
        s.file_count ≠ (_analyze_chunk analyze_file chunk).file_count) ∧
    (∀ g : String → Option FileResult,
      chunkFiles analyze_file chunk = chunkFiles g chunk →
        (_analyze_chunk analyze_file chunk).files = (_analyze_chunk g chunk).files ∧
        (_analyze_chunk analyze_file chunk).summary
          = (_analyze_chunk g chunk).summary) := by
  have hlen := length_chunkFiles analyze_file chunk
  have hsum : ∀ s, _summarize_chunk (chunkFiles analyze_file chunk) = some s →
      s.file_count = (chunkFiles analyze_file chunk).length := by
    intro s hs
    unfold _summarize_chunk at hs
    split at hs
    · exact Option.noConfusion hs
    · cases hs
      rfl
  have hnone : _summarize_chunk (chunkFiles analyze_file chunk) = none →
      (chunkFiles analyze_file chunk).length = 0 := by
    intro h
    unfold _summarize_chunk at h
    split at h
    · rename_i hemp
      simpa [List.isEmpty_iff] using hemp
    · exact Option.noConfusion h
  refine ⟨rfl, ?_, ?_, ?_, ?_⟩
  · intro s hs
    rw [← hlen]
    exact hsum s hs
  · intro h
    rw [← hlen]
    exact hnone h
  · intro hlt s hs
    have h1 := hsum s hs
    rw [hlen] at h1
    rw [h1]
    show _ ≠ chunk.files.length
    omega
  · intro g hg
    constructor
    · show chunkFiles analyze_file chunk = chunkFiles g chunk
      exact hg
    · show _summarize_chunk (chunkFiles analyze_file chunk)
        = _summarize_chunk (chunkFiles g chunk)
      rw [hg]

/-- C10 witness: a two-file chunk whose analyzer fails on one file has
top-level count 2 but summary count 1, the two counters differing exactly by
the failure. -/
theorem claim10_witness :
    (_analyze_chunk
        (fun p => if p = "bad" then none else some (FileResult.mk 5 [] "python"))
        (RepoChunk.mk ["a", "bad"] 20 "core" 1)).file_count
      = (RepoChunk.mk ["a", "bad"] 20 "core" 1).files.length ∧
    (∀ s, (_analyze_chunk
        (fun p => if p = "bad" then none else some (FileResult.mk 5 [] "python"))
        (RepoChunk.mk ["a", "bad"] 20 "core" 1)).summary = some s →
      s.file_count = ((RepoChunk.mk ["a", "bad"] 20 "core" 1).files.filter
        (fun p => ((fun p => if p = "bad" then none
          else some (FileResult.mk 5 [] "python")) p).isSome)).length) ∧
    ((_analyze_chunk
        (fun p => if p = "bad" then none else some (FileResult.mk 5 [] "python"))
        (RepoChunk.mk ["a", "bad"] 20 "core" 1)).summary = none →
      ((RepoChunk.mk ["a", "bad"] 20 "core" 1).files.filter
        (fun p => ((fun p => if p = "bad" then none
          else some (FileResult.mk 5 [] "python")) p).isSome)).length = 0) ∧
    (((RepoChunk.mk ["a", "bad"] 20 "core" 1).files.filter
        (fun p => ((fun p => if p = "bad" then none
          else some (FileResult.mk 5 [] "python")) p).isSome)).length
        < (RepoChunk.mk ["a", "bad"] 20 "core" 1).files.length →
      ∀ s, (_analyze_chunk
          (fun p => if p = "bad" then none else some (FileResult.mk 5 [] "python"))
          (RepoChunk.mk ["a", "bad"] 20 "core" 1)).summary = some s →
        s.file_count ≠ (_analyze_chunk
          (fun p => if p = "bad" then none else some (FileResult.mk 5 [] "python"))
          (RepoChunk.mk ["a", "bad"] 20 "core" 1)).file_count) ∧
    (∀ g : String → Option FileResult,
      chunkFiles
          (fun p => if p = "bad" then none else some (FileResult.mk 5 [] "python"))
          (RepoChunk.mk ["a", "bad"] 20 "core" 1) =
        chunkFiles g (RepoChunk.mk ["a", "bad"] 20 "core" 1) →
        (_analyze_chunk
            (fun p => if p = "bad" then none else some (FileResult.mk 5 [] "python"))
            (RepoChunk.mk ["a", "bad"] 20 "core" 1)).files
          = (_analyze_chunk g (RepoChunk.mk ["a", "bad"] 20 "core" 1)).files ∧
        (_analyze_chunk
            (fun p => if p = "bad" then none else some (FileResult.mk 5 [] "python"))
            (RepoChunk.mk ["a", "bad"] 20 "core" 1)).summary
          = (_analyze_chunk g (RepoChunk.mk ["a", "bad"] 20 "core" 1)).summary) :=
  claim10_theorem
    (fun p => if p = "bad" then none else some (FileResult.mk 5 [] "python"))
    (RepoChunk.mk ["a", "bad"] 20 "core" 1)
